import Mathlib

/-!
Verification of the BeagleG front end, src/machine-control.c.

The development shallowly embeds the C functions of that file:
numeric CLI-list parsing (parse_float_array and the libc strtod it
calls), the configuration defaults and flag handlers of main, the mode
dispatch of main, the file playback loop send_file_to_machine, and the
TCP serving loop run_server.  C strings are List Char, C float values
are modelled as rationals, and the unbounded loops are given explicit
fuel so that termination-independent statements can be proved.
-/

/-- Characters treated as whitespace by isspace in the C locale. -/
def isSpaceChar (c : Char) : Bool :=
  c = ' ' || c = '\t' || c = '\n' || c = '\x0d' || c = '\x0b' || c = '\x0c'

/-- Value of a run of decimal digit characters, most significant first. -/
def natOfDigits (l : List Char) : Nat :=
  l.foldl (fun a c => 10 * a + (c.toNat - 48)) 0

/-- Decimal-number recognition of C strtod, after whitespace removal:
an optional sign, digits, optionally a decimal point with further
digits; at least one digit must be present or no conversion happens.
Returns the converted value and the input remaining after the longest
numeric prefix, or none when no conversion is possible.  (This models
the decimal fixed-point forms strtod accepts; the exotic forms - hex,
exponents, inf/nan - never arise in the usage this repository makes of
it and are not modelled.) -/
def strtodNum (s : List Char) : Option (ℚ × List Char) :=
  let signSplit : Bool × List Char :=
    match s with
    | '-' :: r => (true, r)
    | '+' :: r => (false, r)
    | _ => (false, s)
  let ipRun := signSplit.2.span Char.isDigit
  match ipRun.2 with
  | '.' :: r =>
    let fpRun := r.span Char.isDigit
    if ipRun.1.isEmpty && fpRun.1.isEmpty then none
    else
      let mag : Int := natOfDigits ipRun.1 * 10 ^ fpRun.1.length +
        natOfDigits fpRun.1
      some (mkRat (if signSplit.1 then -mag else mag) (10 ^ fpRun.1.length),
        fpRun.2)
  | _ =>
    if ipRun.1.isEmpty then none
    else
      let mag : Int := natOfDigits ipRun.1
      some (mkRat (if signSplit.1 then -mag else mag) 1, ipRun.2)

/-- Result of a strtod call: the value written, the end pointer (the
rest of the input), and whether a conversion was performed.  In C the
caller detects failure by the pointer comparison end == input; a
performed conversion always consumes a nonempty prefix and on failure
strtod stores the original pointer, so the comparison is equivalent to
the converted flag recorded here. -/
structure StrtodOut where
  value : ℚ
  rest : List Char
  converted : Bool
  deriving DecidableEq, Repr

/-- Model of C strtod: skip leading whitespace, convert the longest
numeric prefix; on failure return value 0 and the original input. -/
def strtod (s : List Char) : StrtodOut :=
  match strtodNum (s.dropWhile isSpaceChar) with
  | some vr => ⟨vr.1, vr.2, true⟩
  | none => ⟨0, s, false⟩

/-- Loop body of parse_float_array (machine-control.c lines 180-189),
with i the current index and rem = count - i the remaining iterations.
Mirrors the C exactly: result[i] is assigned the strtod value before
the error check; on parse error return 0; if the terminator follows
the number return i + 1; otherwise skip one delimiter character and
continue; when all count positions are consumed return count. -/
def parseFloatArrayAux : Nat → Nat → List Char → List ℚ → Nat × List ℚ
  | i, 0, _input, result => (i, result)
  | i, rem + 1, input, result =>
    let out := strtod input
    if out.converted = false then (0, result.set i out.value)
    else if out.rest = [] then (i + 1, result.set i out.value)
    else parseFloatArrayAux (i + 1) rem out.rest.tail (result.set i out.value)

/-- parse_float_array (machine-control.c lines 180-189): parse up to
count delimiter-separated numbers from input into result. -/
def parse_float_array (input : List Char) (result : List ℚ) (count : Nat) :
    Nat × List ℚ :=
  parseFloatArrayAux 0 count input result

/-- GCODE_NUM_AXES, the fixed size of every per-axis array.  The header
defining it is not part of this repository snapshot; the default
initializer lists in machine-control.c all carry 7 entries and the
comment at line 41 names the axis sequence XYZEABC, so the value is 7. -/
def GCODE_NUM_AXES : Nat := 7

/-- Compiled-in default feedrate (machine-control.c lines 42-43). -/
def kMaxFeedrate : List ℚ := [200, 200, 90, 10, 1, 0, 0]

/-- Compiled-in default acceleration (lines 45-46). -/
def kDefaultAccel : List ℚ := [4000, 4000, 1000, 10000, 1, 0, 0]

/-- Compiled-in default steps/mm (lines 48-49). -/
def kStepsPerMM : List ℚ := [160, 160, 160, 40, 1, 0, 0]

/-- Compiled-in default home positions (lines 51-53).  The HomeType
enumeration lives in a header outside this snapshot; its numbering is
fixed by the usage text at lines 78-81: 0 = HOME_POS_NONE,
1 = HOME_POS_ORIGIN, 2 = end-of-range, so the enum is modelled by its
integer value. -/
def kHomePos : List Int := [1, 1, 1, 0, 0, 0, 0]

/-- Compiled-in default move range (lines 55-56). -/
def kMoveRange : List ℚ := [100, 100, 100, -1, -1, -1, -1]

/-- Hardcoded channel layout string (line 60). -/
def kChannelLayout : List Char := ['2', '3', '1', '4', '0']

/-- Default axis mapping string (line 63). -/
def kAxisMapping : List Char := ['X', 'Y', 'Z', 'E', 'A']

/-- The fields of struct MachineControlConfig that machine-control.c
fills in (the struct itself is declared in a header outside this
snapshot; the member set is taken from the assignments in main,
lines 192-204).  Per-axis float arrays are lists of rationals; the
home_switch enum array is a list of the integer values of HomeType. -/
structure MachineControlConfig where
  steps_per_mm : List ℚ
  max_feedrate : List ℚ
  acceleration : List ℚ
  move_range_mm : List ℚ
  home_switch : List Int
  axis_mapping : List Char
  channel_layout : List Char
  speed_factor : ℚ
  dry_run : Bool
  debug_print : Bool
  synchronous : Bool
  deriving DecidableEq

/-- The configuration as main builds it before option processing
(machine-control.c lines 192-204): defaults copied in, scalars set. -/
def initialConfig : MachineControlConfig :=
  { steps_per_mm := kStepsPerMM
    max_feedrate := kMaxFeedrate
    acceleration := kDefaultAccel
    move_range_mm := kMoveRange
    home_switch := kHomePos
    axis_mapping := kAxisMapping
    channel_layout := kChannelLayout
    speed_factor := 1
    dry_run := false
    debug_print := false
    synchronous := false }

/-- C conversion of a floating value to an integer (used by the cast
to enum HomeType at line 262): truncation toward zero, which on a
rational num/den is exactly truncating integer division. -/
def truncTowardZero (q : ℚ) : Int := Int.tdiv q.num q.den

/-- Option case 'm' (lines 238-242): parse the list over the current
max_feedrate entries; a parse count of 0 is a usage error (none). -/
def applyMaxFeedrate (optarg : List Char) (c : MachineControlConfig) :
    Option MachineControlConfig :=
  let pr := parse_float_array optarg c.max_feedrate GCODE_NUM_AXES
  if pr.1 = 0 then none else some { c with max_feedrate := pr.2 }

/-- Option case 'a' (lines 243-248). -/
def applyAccel (optarg : List Char) (c : MachineControlConfig) :
    Option MachineControlConfig :=
  let pr := parse_float_array optarg c.acceleration GCODE_NUM_AXES
  if pr.1 = 0 then none else some { c with acceleration := pr.2 }

/-- Option case SET_STEPS_MM (lines 249-252). -/
def applyStepsMM (optarg : List Char) (c : MachineControlConfig) :
    Option MachineControlConfig :=
  let pr := parse_float_array optarg c.steps_per_mm GCODE_NUM_AXES
  if pr.1 = 0 then none else some { c with steps_per_mm := pr.2 }

/-- Option case 'r' (lines 265-268). -/
def applyMoveRange (optarg : List Char) (c : MachineControlConfig) :
    Option MachineControlConfig :=
  let pr := parse_float_array optarg c.move_range_mm GCODE_NUM_AXES
  if pr.1 = 0 then none else some { c with move_range_mm := pr.2 }

/-- Option case SET_HOME_POS (lines 256-264): parse into a
zero-initialized temporary array (bzero), then overwrite every one of
the GCODE_NUM_AXES home_switch entries with the truncated value. -/
def applyHomePos (optarg : List Char) (c : MachineControlConfig) :
    Option MachineControlConfig :=
  let tmp : List ℚ := List.replicate GCODE_NUM_AXES 0
  let pr := parse_float_array optarg tmp GCODE_NUM_AXES
  if pr.1 = 0 then none
  else some { c with home_switch := pr.2.map truncTowardZero }

/-- Model of C atoi as used for the --port value (line 282): skip
whitespace, optional sign, leading decimal digits; 0 when there are
no digits. -/
def atoiDigits : List Char → Int → Int
  | [], acc => acc
  | c :: r, acc =>
    if c.isDigit then atoiDigits r (10 * acc + (c.toNat - 48 : Int))
    else acc

/-- C atoi on the whole argument string. -/
def atoi (s : List Char) : Int :=
  match s.dropWhile isSpaceChar with
  | '-' :: r => - atoiDigits r 0
  | '+' :: r => atoiDigits r 0
  | t => atoiDigits t 0

/-- The two execution modes main can route to (lines 304-310). -/
inductive RunMode
  | file (do_repeat : Bool)
  | server
  deriving DecidableEq

/-- The two usage errors of the mode checks (lines 292-298). -/
inductive UsageError
  | chooseOne
  | repeatNeedsFile
  deriving DecidableEq

/-- usage() always returns 1 (machine-control.c line 106), which main
passes straight out as the process exit code. -/
def usageExitCode (_e : UsageError) : Int := 1

/-- Mode selection of main after getopt finishes (lines 292-298 and
305-309): reject unless exactly one of a trailing filename and a
positive listen_port is present; then reject -R without a filename;
otherwise route to file playback or to the server. -/
def selectMode (has_filename : Bool) (listen_port : Int)
    (do_file_repeat : Bool) : Except UsageError RunMode :=
  if !(Bool.xor has_filename (decide (0 < listen_port))) then
    Except.error UsageError.chooseOne
  else if !has_filename && do_file_repeat then
    Except.error UsageError.repeatNeedsFile
  else if has_filename then Except.ok (RunMode.file do_file_repeat)
  else Except.ok RunMode.server

/-- Events of a run of send_file_to_machine (machine-control.c lines
111-118): an open() call returning a descriptor, a
gcode_machine_control_from_stream call on that descriptor with its
result, and the return from the function with its value. -/
inductive FileEvent
  | openEv (fd : Int)
  | engineEv (fd : Int) (result : Int)
  | retEv (code : Int)
  deriving DecidableEq

/-- send_file_to_machine (lines 111-118) as an event trace.  openFd
gives the descriptor the k-th open() returns (-1 on failure; the code
never checks it) and engineResult the result of the k-th engine call.
The do-while loop is given fuel; an empty continuation means the fuel
ran out with the loop still running.  Each iteration opens the file,
hands the descriptor to the engine, returns 1 on a non-zero result,
and otherwise loops again exactly when do_loop is set, else returns 0. -/
def sendFileToMachine (openFd : Nat → Int) (engineResult : Nat → Int)
    (do_loop : Bool) : Nat → Nat → List FileEvent
  | 0, _ => []
  | fuel + 1, k =>
    FileEvent.openEv (openFd k) ::
    FileEvent.engineEv (openFd k) (engineResult k) ::
    (if engineResult k ≠ 0 then [FileEvent.retEv 1]
     else if do_loop then sendFileToMachine openFd engineResult do_loop fuel (k + 1)
     else [FileEvent.retEv 0])

/-- Number of engine invocations in a trace. -/
def countEngineCalls : List FileEvent → Nat
  | [] => 0
  | FileEvent.engineEv _ _ :: l => countEngineCalls l + 1
  | _ :: l => countEngineCalls l

/-- Number of open() calls in a trace. -/
def countOpenCalls : List FileEvent → Nat
  | [] => 0
  | FileEvent.openEv _ :: l => countOpenCalls l + 1
  | _ :: l => countOpenCalls l

/-- Number of returns in a trace (0 while the loop is still running). -/
def countReturns : List FileEvent → Nat
  | [] => 0
  | FileEvent.retEv _ :: l => countReturns l + 1
  | _ :: l => countReturns l

/-- Events of a run of run_server (machine-control.c lines 155-175):
a successful accept(), a failed accept(), an engine session with its
result, and the close of the listening socket. -/
inductive ServerEvent
  | acceptEv
  | acceptFailEv
  | serveEv (result : Int)
  | closeEv
  deriving DecidableEq

/-- The accept/serve do-while loop of run_server (lines 156-170) plus
its exit path (lines 172-175), as a trace and return value.  acceptOk
tells whether the k-th accept() succeeds and sessionResult gives the
engine result of the k-th session.  Fuel exhaustion (return value
none) means the loop is still running.  A failed accept returns 1 at
once (line 162), without closing the listening socket.  A session with
result 0 re-enters accept; a non-zero result leaves the loop, closes
the listening socket and makes run_server return 0 (line 175). -/
def runServerLoop (acceptOk : Nat → Bool) (sessionResult : Nat → Int) :
    Nat → Nat → List ServerEvent × Option Int
  | 0, _ => ([], none)
  | fuel + 1, k =>
    if acceptOk k then
      if sessionResult k = 0 then
        let next := runServerLoop acceptOk sessionResult fuel (k + 1)
        (ServerEvent.acceptEv :: ServerEvent.serveEv 0 :: next.1, next.2)
      else
        ([ServerEvent.acceptEv, ServerEvent.serveEv (sessionResult k),
          ServerEvent.closeEv], some 0)
    else ([ServerEvent.acceptFailEv], some 1)

/-- run_server (lines 123-176): the port bound check (line 124), the
socket/bind-address/bind setup whose OS-level failures all return 1
(summarized by setupOk), then the serving loop. -/
def run_server (port : Int) (setupOk : Bool) (acceptOk : Nat → Bool)
    (sessionResult : Nat → Int) (fuel : Nat) :
    List ServerEvent × Option Int :=
  if 65535 < port then ([], some 1)
  else if !setupOk then ([], some 1)
  else runServerLoop acceptOk sessionResult fuel 0

/-- The tail of main in network mode (lines 300-314): a non-zero
gcode_machine_control_init result exits with code 1; otherwise the
process exit code is exactly what run_server returns. -/
def mainNetworkExitCode (initResult : Int) (port : Int) (setupOk : Bool)
    (acceptOk : Nat → Bool) (sessionResult : Nat → Int) (fuel : Nat) :
    Option Int :=
  if initResult ≠ 0 then some 1
  else (run_server port setupOk acceptOk sessionResult fuel).2

/-- Number of successful accepts in a server trace. -/
def countAccepts : List ServerEvent → Nat
  | [] => 0
  | ServerEvent.acceptEv :: l => countAccepts l + 1
  | _ :: l => countAccepts l

/-- Number of completed engine sessions in a server trace. -/
def countServes : List ServerEvent → Nat
  | [] => 0
  | ServerEvent.serveEv _ :: l => countServes l + 1
  | _ :: l => countServes l

/-- Write the values vs into consecutive positions of result starting
at index i (the footprint parse_float_array leaves on its output). -/
def setFrom : List ℚ → Nat → List ℚ → List ℚ
  | result, _, [] => result
  | result, i, v :: vs => setFrom (result.set i v) (i + 1) vs

/-- ParsedTokens s vs: the input s consists of exactly vs.length
well-formed numeric tokens in the sense of the parse_float_array loop:
each strtod call converts a value, after each token except the last
one delimiter character is skipped, and the terminator immediately
follows the last token. -/
inductive ParsedTokens : List Char → List ℚ → Prop
  | last (s : List Char) (v : ℚ) (h : strtod s = ⟨v, [], true⟩) :
      ParsedTokens s [v]
  | cons (s : List Char) (v : ℚ) (d : Char) (r : List Char) (vs : List ℚ)
      (h : strtod s = ⟨v, d :: r, true⟩) (ht : ParsedTokens r vs) :
      ParsedTokens s (v :: vs)

/-- ParseFailsAt s n: scanning s the way the parse_float_array loop
does, the first n tokens convert (each followed by a skipped delimiter
character), and the strtod call for position n performs no conversion
(a malformed token at position n). -/
inductive ParseFailsAt : List Char → Nat → Prop
  | here (s : List Char) (h : (strtod s).converted = false) :
      ParseFailsAt s 0
  | step (s : List Char) (v : ℚ) (d : Char) (r : List Char) (n : Nat)
      (h : strtod s = ⟨v, d :: r, true⟩) (ht : ParseFailsAt r n) :
      ParseFailsAt s (n + 1)

example : parse_float_array ['1', ',', '2', ',', '3'] [9, 9, 9, 9, 9] 5 =
    (3, [1, 2, 3, 9, 9]) := by decide

example : parse_float_array ['1', ',', 'x', ',', '3'] [9, 9, 9] 3 =
    (0, [1, 0, 9]) := by decide

example : parse_float_array ['x'] [5, 5, 5] 3 = (0, [0, 5, 5]) := by decide

example : atoi ['0'] = 0 := by decide
example : atoi ['-', '5'] = -5 := by decide
example : atoi ['a', 'b', 'c'] = 0 := by decide
example : atoi ['4', '4', '4', '4'] = 4444 := by decide

example : selectMode true 80 false = Except.error UsageError.chooseOne := rfl
example : selectMode false (-1) false = Except.error UsageError.chooseOne := rfl
example : selectMode false 80 true = Except.error UsageError.repeatNeedsFile :=
  rfl
example : selectMode true (-1) true = Except.ok (RunMode.file true) := rfl
example : selectMode false 80 false = Except.ok RunMode.server := rfl

example : ParsedTokens ['1', ',', '2', ',', '3'] [1, 2, 3] := by
  refine ParsedTokens.cons _ 1 ',' ['2', ',', '3'] _ (by decide) ?_
  refine ParsedTokens.cons _ 2 ',' ['3'] _ (by decide) ?_
  exact ParsedTokens.last _ 3 (by decide)

example : ParseFailsAt ['1', ',', 'x', ',', '3'] 1 := by
  refine ParseFailsAt.step _ 1 ',' ['x', ',', '3'] _ (by decide) ?_
  exact ParseFailsAt.here _ (by decide)

theorem setFrom_length (vs : List ℚ) :
    ∀ (result : List ℚ) (i : Nat), (setFrom result i vs).length = result.length := by
  induction vs with
  | nil => intro result i; rfl
  | cons v vs ih => intro result i; simp [setFrom, ih]

theorem setFrom_getElem?_ge (vs : List ℚ) :
    ∀ (result : List ℚ) (i j : Nat), i + vs.length ≤ j →
      (setFrom result i vs)[j]? = result[j]? := by
  induction vs with
  | nil => intro result i j _; rfl
  | cons v vs ih =>
    intro result i j h
    simp only [setFrom]
    rw [ih (result.set i v) (i + 1) j (by simpa [Nat.add_comm, Nat.add_left_comm] using h)]
    exact List.getElem?_set_ne (by simp at h; omega)

theorem setFrom_getElem?_lt (vs : List ℚ) :
    ∀ (result : List ℚ) (i j : Nat), j < i →
      (setFrom result i vs)[j]? = result[j]? := by
  induction vs with
  | nil => intro result i j _; rfl
  | cons v vs ih =>
    intro result i j h
    simp only [setFrom]
    rw [ih (result.set i v) (i + 1) j (by omega)]
    exact List.getElem?_set_ne (by omega)

theorem setFrom_getElem?_mem (vs : List ℚ) :
    ∀ (result : List ℚ) (i j : Nat), i ≤ j → j < i + vs.length →
      j < result.length → (setFrom result i vs)[j]? = vs[j - i]? := by
  induction vs with
  | nil => intro result i j h1 h2 _; simp at h2; omega
  | cons v vs ih =>
    intro result i j h1 h2 hlen
    simp only [setFrom]
    rcases Nat.eq_or_lt_of_le h1 with heq | hlt
    · subst heq
      rw [setFrom_getElem?_lt vs (result.set i v) (i + 1) i (by omega)]
      rw [List.getElem?_set_self (by simpa using hlen)]
      simp
    · rw [ih (result.set i v) (i + 1) j hlt (by simp at h2 ⊢; omega)
        (by simpa using hlen)]
      have hj : j - i = (j - (i + 1)) + 1 := by omega
      rw [hj]
      simp

theorem parsedTokens_length_pos {s : List Char} {vs : List ℚ}
    (ht : ParsedTokens s vs) : 0 < vs.length := by
  cases ht <;> simp

/-- Central lemma about the parse_float_array loop on well-formed
input: starting at index i with enough remaining iterations, it
consumes all the tokens, returns i plus the token count, and its
output array is the input array with the token values written at the
consecutive positions starting at i. -/
theorem parseAux_tokens {s : List Char} {vs : List ℚ}
    (ht : ParsedTokens s vs) :
    ∀ (i rem : Nat) (result : List ℚ), vs.length ≤ rem →
      parseFloatArrayAux i rem s result =
        (i + vs.length, setFrom result i vs) := by
  induction ht with
  | last s v h =>
    intro i rem result hrem
    cases rem with
    | zero => simp at hrem
    | succ r => simp [parseFloatArrayAux, h, setFrom]
  | cons s v d r vs h ht ih =>
    intro i rem result hrem
    cases rem with
    | zero => simp at hrem
    | succ rm =>
      have hlen : vs.length ≤ rm := by simp at hrem; omega
      simp only [parseFloatArrayAux, h]
      norm_num
      rw [ih (i + 1) rm (result.set i v) hlen]
      simp [setFrom]
      omega

/-- Central lemma about the parse_float_array loop on input whose
token at position n (counting from the loop start) fails to convert:
as long as the loop has not run out of positions before reaching it,
the parse count is 0. -/
theorem parseAux_fails {s : List Char} {n : Nat} (hf : ParseFailsAt s n) :
    ∀ (i rem : Nat) (result : List ℚ), n < rem →
      (parseFloatArrayAux i rem s result).1 = 0 := by
  induction hf with
  | here s h =>
    intro i rem result hrem
    cases rem with
    | zero => omega
    | succ r => simp [parseFloatArrayAux, h]
  | step s v d r n h ht ih =>
    intro i rem result hrem
    cases rem with
    | zero => omega
    | succ rm =>
      simp only [parseFloatArrayAux, h]
      norm_num
      exact ih (i + 1) rm (result.set i v) (by omega)

/-- On a failed conversion strtod returns the value 0 (which the loop
has already stored into the destination before noticing the failure). -/
theorem strtod_value_of_fail {s : List Char}
    (h : (strtod s).converted = false) : (strtod s).value = 0 := by
  unfold strtod at h ⊢
  cases hm : strtodNum (s.dropWhile isSpaceChar) with
  | none => simp [hm]
  | some vr => rw [hm] at h; simp at h

/-- C7: for every input string consisting of k ≤ N well-formed
delimiter-separated numeric tokens, parse_float_array returns exactly
k, writes the k parsed values left-to-right into positions 0..k-1, and
leaves positions k..N-1 holding whatever values they held before the
call. -/
theorem claim_C7_parse_success (input : List Char) (vs : List ℚ)
    (result : List ℚ) (count : Nat) (ht : ParsedTokens input vs)
    (hk : vs.length ≤ count) (hlen : count ≤ result.length) :
    (parse_float_array input result count).1 = vs.length ∧
    (∀ j, j < vs.length →
      (parse_float_array input result count).2[j]? = vs[j]?) ∧
    (∀ j, vs.length ≤ j →
      (parse_float_array input result count).2[j]? = result[j]?) := by
  have h := parseAux_tokens ht 0 count result hk
  unfold parse_float_array
  rw [h]
  refine ⟨by simp, ?_, ?_⟩
  · intro j hj
    have hm := setFrom_getElem?_mem vs result 0 j (by omega) (by omega)
      (by omega)
    simpa using hm
  · intro j hj
    exact setFrom_getElem?_ge vs result 0 j (by omega)

theorem claim_C7_witness :
    (parse_float_array ['1', ',', '2', ',', '3'] [9, 9, 9, 9, 9] 5).1 = 3 ∧
    (parse_float_array ['1', ',', '2', ',', '3'] [9, 9, 9, 9, 9] 5).2[1]? =
      some 2 ∧
    (parse_float_array ['1', ',', '2', ',', '3'] [9, 9, 9, 9, 9] 5).2[4]? =
      some 9 := by
  have ht : ParsedTokens ['1', ',', '2', ',', '3'] [1, 2, 3] :=
    ParsedTokens.cons _ 1 ',' ['2', ',', '3'] _ (by decide)
      (ParsedTokens.cons _ 2 ',' ['3'] _ (by decide)
        (ParsedTokens.last _ 3 (by decide)))
  obtain ⟨h1, h2, h3⟩ := claim_C7_parse_success ['1', ',', '2', ',', '3']
    [1, 2, 3] [9, 9, 9, 9, 9] 5 ht (by decide) (by decide)
  exact ⟨h1, by rw [h2 1 (by decide)]; decide, by rw [h3 4 (by decide)]; decide⟩

/-- C8: an input whose token at position n > 0 is malformed (after the
first n tokens parsed successfully), with n within the first count
positions, makes parse_float_array return 0: total failure for the
whole call. -/
theorem claim_C8_fail_after_success (input : List Char) (n : Nat)
    (result : List ℚ) (count : Nat) (hf : ParseFailsAt input n)
    (_hn : 0 < n) (hcount : n < count) :
    (parse_float_array input result count).1 = 0 :=
  parseAux_fails hf 0 count result hcount

theorem claim_C8_witness :
    (parse_float_array ['1', ',', 'x', ',', '3'] [9, 9, 9] 3).1 = 0 :=
  claim_C8_fail_after_success ['1', ',', 'x', ',', '3'] 1 [9, 9, 9] 3
    (ParseFailsAt.step _ 1 ',' ['x', ',', '3'] 0 (by decide)
      (ParseFailsAt.here _ (by decide)))
    (by decide) (by decide)

/-- C3 counterexample: on the input "x", whose very first token has no
numeric prefix, parse_float_array does return a count of 0, but the
destination array is not left unmodified: position 0 has been
overwritten (with the 0.0 that strtod returns on failure, assigned at
line 183 before the error check at line 184). -/
theorem claim_C3_counterexample :
    (parse_float_array ['x'] [5, 5, 5] 3).1 = 0 ∧
    (parse_float_array ['x'] [5, 5, 5] 3).2 ≠ [5, 5, 5] := by decide

/-- C3 amended: when the very first token has no numeric prefix,
parse_float_array returns a parse count of 0 and leaves every position
except position 0 unmodified; position 0 is overwritten with 0.0 (the
value strtod returns when no conversion is performed). -/
theorem claim_C3_amended (input : List Char) (result : List ℚ) (count : Nat)
    (hfail : (strtod input).converted = false) (hcount : 0 < count) :
    parse_float_array input result count = (0, result.set 0 0) ∧
    ∀ j, 0 < j → (parse_float_array input result count).2[j]? = result[j]? := by
  cases count with
  | zero => omega
  | succ r =>
    have hv := strtod_value_of_fail hfail
    have heq : parse_float_array input result (r + 1) = (0, result.set 0 0) := by
      unfold parse_float_array
      simp [parseFloatArrayAux, hfail, hv]
    refine ⟨heq, ?_⟩
    intro j hj
    rw [heq]
    exact List.getElem?_set_ne (by omega)

theorem claim_C3_witness :
    parse_float_array ['x'] [5, 5, 5] 3 = (0, ([5, 5, 5] : List ℚ).set 0 0) ∧
    ∀ j, 0 < j → (parse_float_array ['x'] [5, 5, 5] 3).2[j]? =
      ([5, 5, 5] : List ℚ)[j]? :=
  claim_C3_amended ['x'] [5, 5, 5] 3 (by decide) (by decide)

/-- C2 counterexample: after the successful one-token override
--home-pos "2", position 1 of home_switch (not supplied by the flag)
holds 0 (HOME_POS_NONE), not its compiled-in default 1
(HOME_POS_ORIGIN): the SET_HOME_POS case copies all N entries of a
zero-initialized temporary over the defaults. -/
theorem claim_C2_counterexample :
    (applyHomePos ['2'] initialConfig).map MachineControlConfig.home_switch =
      some [2, 0, 0, 0, 0, 0, 0] ∧
    initialConfig.home_switch[1]? = some 1 ∧ (0 : Int) ≠ 1 := by decide

/-- C2 amended: for the four float per-axis arrays (steps_per_mm,
max_feedrate, acceleration, move_range_mm) a successful override list
of k ≤ N tokens leaves positions k..N-1 at their compiled-in defaults;
for home_switch, a successful --home-pos flag with k tokens instead
sets every position k..N-1 to 0 (HOME_POS_NONE, the truncation of the
zero-initialized temporary), which need not equal the default. -/
theorem claim_C2_amended (arg : List Char) (vs : List ℚ)
    (ht : ParsedTokens arg vs) (hk : vs.length ≤ GCODE_NUM_AXES) :
    (∃ c, applyMaxFeedrate arg initialConfig = some c ∧
      ∀ j, vs.length ≤ j → c.max_feedrate[j]? = kMaxFeedrate[j]?) ∧
    (∃ c, applyAccel arg initialConfig = some c ∧
      ∀ j, vs.length ≤ j → c.acceleration[j]? = kDefaultAccel[j]?) ∧
    (∃ c, applyStepsMM arg initialConfig = some c ∧
      ∀ j, vs.length ≤ j → c.steps_per_mm[j]? = kStepsPerMM[j]?) ∧
    (∃ c, applyMoveRange arg initialConfig = some c ∧
      ∀ j, vs.length ≤ j → c.move_range_mm[j]? = kMoveRange[j]?) ∧
    (∃ c, applyHomePos arg initialConfig = some c ∧
      ∀ j, vs.length ≤ j → j < GCODE_NUM_AXES →
        c.home_switch[j]? = some 0) := by
  have hpos : vs.length ≠ 0 := by
    have := parsedTokens_length_pos ht; omega
  have hparse : ∀ dflt : List ℚ, parse_float_array arg dflt GCODE_NUM_AXES =
      (vs.length, setFrom dflt 0 vs) := by
    intro dflt
    have h := parseAux_tokens ht 0 GCODE_NUM_AXES dflt hk
    unfold parse_float_array
    rw [h]; simp
  refine ⟨?_, ?_, ?_, ?_, ?_⟩
  · have hc : applyMaxFeedrate arg initialConfig = some { initialConfig with
        max_feedrate := setFrom initialConfig.max_feedrate 0 vs } := by
      simp [applyMaxFeedrate, hparse, hpos]
    refine ⟨_, hc, ?_⟩
    intro j hj
    have h := setFrom_getElem?_ge vs initialConfig.max_feedrate 0 j (by omega)
    simpa [initialConfig] using h
  · have hc : applyAccel arg initialConfig = some { initialConfig with
        acceleration := setFrom initialConfig.acceleration 0 vs } := by
      simp [applyAccel, hparse, hpos]
    refine ⟨_, hc, ?_⟩
    intro j hj
    have h := setFrom_getElem?_ge vs initialConfig.acceleration 0 j (by omega)
    simpa [initialConfig] using h
  · have hc : applyStepsMM arg initialConfig = some { initialConfig with
        steps_per_mm := setFrom initialConfig.steps_per_mm 0 vs } := by
      simp [applyStepsMM, hparse, hpos]
    refine ⟨_, hc, ?_⟩
    intro j hj
    have h := setFrom_getElem?_ge vs initialConfig.steps_per_mm 0 j (by omega)
    simpa [initialConfig] using h
  · have hc : applyMoveRange arg initialConfig = some { initialConfig with
        move_range_mm := setFrom initialConfig.move_range_mm 0 vs } := by
      simp [applyMoveRange, hparse, hpos]
    refine ⟨_, hc, ?_⟩
    intro j hj
    have h := setFrom_getElem?_ge vs initialConfig.move_range_mm 0 j (by omega)
    simpa [initialConfig] using h
  · have hc : applyHomePos arg initialConfig = some { initialConfig with
        home_switch :=
          (setFrom (List.replicate GCODE_NUM_AXES 0) 0 vs).map
            truncTowardZero } := by
      simp [applyHomePos, hparse, hpos]
    refine ⟨_, hc, ?_⟩
    intro j hj hj7
    have h := setFrom_getElem?_ge vs (List.replicate GCODE_NUM_AXES 0) 0 j
      (by omega)
    show ((setFrom (List.replicate GCODE_NUM_AXES 0) 0 vs).map
      truncTowardZero)[j]? = some 0
    rw [List.getElem?_map, h, List.getElem?_replicate]
    simp [hj7, truncTowardZero]

theorem claim_C2_witness :
    (applyHomePos ['2'] initialConfig).bind
      (fun c => c.home_switch[3]?) = some 0 ∧
    (applyMaxFeedrate ['2'] initialConfig).bind
      (fun c => c.max_feedrate[3]?) = kMaxFeedrate[3]? := by
  have h := claim_C2_amended ['2'] [2]
    (ParsedTokens.last _ 2 (by decide)) (by decide)
  obtain ⟨hfr, _, _, _, hhome⟩ := h
  obtain ⟨c1, hc1, hall1⟩ := hhome
  obtain ⟨c2, hc2, hall2⟩ := hfr
  constructor
  · rw [hc1]
    simpa using hall1 3 (by decide) (by decide)
  · rw [hc2]
    simpa using hall2 3 (by decide)

/-- C5: after flag parsing, mode selection is a logical exclusive-or
on the presence of a trailing filename and of a (positive) listen
port: both present or neither present is the choose-one usage error
(exit code 1); the repeat flag together with network mode (no
filename) is likewise a usage error; otherwise the matching runner is
selected. -/
theorem claim_C5_mode_xor (p : Int) (rep : Bool) :
    (0 < p → selectMode true p rep = Except.error UsageError.chooseOne) ∧
    (p ≤ 0 → selectMode false p rep = Except.error UsageError.chooseOne) ∧
    (0 < p → selectMode false p true =
      Except.error UsageError.repeatNeedsFile) ∧
    (p ≤ 0 → selectMode true p rep = Except.ok (RunMode.file rep)) ∧
    (0 < p → selectMode false p false = Except.ok RunMode.server) ∧
    usageExitCode UsageError.chooseOne = 1 ∧
    usageExitCode UsageError.repeatNeedsFile = 1 := by
  refine ⟨?_, ?_, ?_, ?_, ?_, rfl, rfl⟩ <;> intro hp
  · simp [selectMode, hp]
  · have hnp : ¬ (0 < p) := by omega
    simp [selectMode, hnp]
  · simp [selectMode, hp]
  · have hnp : ¬ (0 < p) := by omega
    simp [selectMode, hnp]
  · simp [selectMode, hp]

theorem claim_C5_witness :
    selectMode true 5 false = Except.error UsageError.chooseOne ∧
    selectMode false 0 false = Except.error UsageError.chooseOne ∧
    selectMode false 5 true = Except.error UsageError.repeatNeedsFile ∧
    selectMode true (-1) true = Except.ok (RunMode.file true) ∧
    selectMode false 5 false = Except.ok RunMode.server :=
  ⟨(claim_C5_mode_xor 5 false).1 (by decide),
   (claim_C5_mode_xor 0 false).2.1 (by decide),
   (claim_C5_mode_xor 5 true).2.2.1 (by decide),
   (claim_C5_mode_xor (-1) true).2.2.2.1 (by decide),
   (claim_C5_mode_xor 5 false).2.2.2.2.1 (by decide)⟩

/-- C10: a --port argument whose atoi conversion is not strictly
positive is treated exactly like no port at all (listen_port keeps
behaving as its initial -1): with a trailing filename the program
silently selects file mode, and without one it produces the choose-one
usage error - there is no invalid-port error in flag processing. -/
theorem claim_C10_nonpositive_port (arg : List Char) (f rep : Bool)
    (h : atoi arg ≤ 0) :
    selectMode f (atoi arg) rep = selectMode f (-1) rep ∧
    (f = true → selectMode f (atoi arg) rep = Except.ok (RunMode.file rep)) ∧
    (f = false → selectMode f (atoi arg) rep =
      Except.error UsageError.chooseOne) := by
  have hneg : ¬ ((0 : Int) < atoi arg) := by omega
  have hneg1 : ¬ ((0 : Int) < -1) := by decide
  cases f <;> simp [selectMode, hneg, hneg1]

theorem claim_C10_witness :
    atoi ['0'] ≤ 0 ∧ atoi ['-', '5'] ≤ 0 ∧ atoi ['x'] ≤ 0 ∧
    selectMode true (atoi ['0']) false = Except.ok (RunMode.file false) ∧
    selectMode false (atoi ['-', '5']) false =
      Except.error UsageError.chooseOne ∧
    selectMode false (atoi ['x']) true = selectMode false (-1) true :=
  ⟨by decide, by decide, by decide,
   (claim_C10_nonpositive_port ['0'] true false (by decide)).2.1 rfl,
   (claim_C10_nonpositive_port ['-', '5'] false false (by decide)).2.2 rfl,
   (claim_C10_nonpositive_port ['x'] false true (by decide)).1⟩

/-- With repeat set and an engine that always reports 0, every unit of
fuel produces exactly one fresh open() and one engine invocation, and
the loop never returns. -/
theorem sendFile_repeat_all_zero (openFd engineResult : Nat → Int)
    (hz : ∀ k, engineResult k = 0) :
    ∀ (fuel k : Nat),
      countEngineCalls (sendFileToMachine openFd engineResult true fuel k) =
        fuel ∧
      countOpenCalls (sendFileToMachine openFd engineResult true fuel k) =
        fuel ∧
      countReturns (sendFileToMachine openFd engineResult true fuel k) = 0 := by
  intro fuel
  induction fuel with
  | zero =>
    intro k
    simp [sendFileToMachine, countEngineCalls, countOpenCalls, countReturns]
  | succ f ih =>
    intro k
    obtain ⟨h1, h2, h3⟩ := ih (k + 1)
    simp [sendFileToMachine, hz k, countEngineCalls, countOpenCalls,
      countReturns, h1, h2, h3]

/-- C9: in file mode with repeat disabled the engine is invoked
exactly once regardless of its result (and send_file_to_machine
returns); with repeat enabled a non-zero engine result makes the
function return 1 immediately, without reopening the file; with repeat
enabled and an engine that always reports 0, n units of fuel yield n
reopenings and n engine invocations with no return, so the engine is
invoked an unbounded number of times. -/
theorem claim_C9_file_playback (openFd engineResult : Nat → Int)
    (fuel : Nat) :
    (1 ≤ fuel →
      countEngineCalls (sendFileToMachine openFd engineResult false fuel 0) =
        1 ∧
      countReturns (sendFileToMachine openFd engineResult false fuel 0) = 1) ∧
    (engineResult 0 ≠ 0 →
      sendFileToMachine openFd engineResult true (fuel + 1) 0 =
        [FileEvent.openEv (openFd 0),
         FileEvent.engineEv (openFd 0) (engineResult 0),
         FileEvent.retEv 1]) ∧
    ((∀ k, engineResult k = 0) →
      countEngineCalls (sendFileToMachine openFd engineResult true fuel 0) =
        fuel ∧
      countOpenCalls (sendFileToMachine openFd engineResult true fuel 0) =
        fuel ∧
      countReturns (sendFileToMachine openFd engineResult true fuel 0) = 0) := by
  refine ⟨?_, ?_, ?_⟩
  · intro hfuel
    cases fuel with
    | zero => omega
    | succ f =>
      by_cases h0 : engineResult 0 = 0 <;>
        simp [sendFileToMachine, h0, countEngineCalls, countReturns]
  · intro hnz
    simp [sendFileToMachine, hnz]
  · intro hz
    exact sendFile_repeat_all_zero openFd engineResult hz fuel 0

theorem claim_C9_witness :
    countEngineCalls
      (sendFileToMachine (fun _ => 3) (fun _ => 0) false 4 0) = 1 ∧
    sendFileToMachine (fun _ => 3) (fun _ => 5) true 4 0 =
      [FileEvent.openEv 3, FileEvent.engineEv 3 5, FileEvent.retEv 1] ∧
    countEngineCalls
      (sendFileToMachine (fun _ => 3) (fun _ => 0) true 4 0) = 4 :=
  ⟨((claim_C9_file_playback (fun _ => 3) (fun _ => 0) 4).1 (by decide)).1,
   (claim_C9_file_playback (fun _ => 3) (fun _ => 5) 3).2.1 (by decide),
   ((claim_C9_file_playback (fun _ => 3) (fun _ => 0) 4).2.2
     (fun _ => rfl)).1⟩

/-- C4 (a bug in the code): send_file_to_machine never checks the
result of open().  When the open fails (descriptor -1) the failed
descriptor is handed straight to
gcode_machine_control_from_stream - no error is reported, the process
does not necessarily exit 1 (if the engine reports 0 on the bad
descriptor the function returns 0), contradicting the specified
resource-error handling. -/
theorem claim_C4_open_unchecked (openFd engineResult : Nat → Int)
    (do_loop : Bool) (fuel : Nat) (hopen : openFd 0 = -1)
    (hfuel : 1 ≤ fuel) :
    (∃ tl, sendFileToMachine openFd engineResult do_loop fuel 0 =
      FileEvent.openEv (-1) ::
      FileEvent.engineEv (-1) (engineResult 0) :: tl) ∧
    (engineResult 0 = 0 → do_loop = false →
      sendFileToMachine openFd engineResult do_loop fuel 0 =
        [FileEvent.openEv (-1), FileEvent.engineEv (-1) 0,
         FileEvent.retEv 0]) := by
  cases fuel with
  | zero => omega
  | succ f =>
    constructor
    · refine ⟨if engineResult 0 ≠ 0 then [FileEvent.retEv 1]
        else if do_loop then sendFileToMachine openFd engineResult do_loop f 1
        else [FileEvent.retEv 0], ?_⟩
      simp only [sendFileToMachine, hopen]
    · intro h0 hloop
      subst hloop
      simp [sendFileToMachine, hopen, h0]

theorem claim_C4_witness :
    sendFileToMachine (fun _ => -1) (fun _ => 0) false 1 0 =
      [FileEvent.openEv (-1), FileEvent.engineEv (-1) 0,
       FileEvent.retEv 0] :=
  (claim_C4_open_unchecked (fun _ => -1) (fun _ => 0) false 1 rfl
    (by decide)).2 rfl rfl

/-- Serialization invariant of the serving loop: in every prefix of
the trace the number of completed sessions never exceeds the number of
accepts, and the number of accepts exceeds the number of completed
sessions by at most one - sessions and accepts strictly alternate, so
at most one connection is in service at any time. -/
theorem serverLoop_session_counts (acceptOk : Nat → Bool)
    (sessionResult : Nat → Int) :
    ∀ (fuel k n : Nat),
      countServes ((runServerLoop acceptOk sessionResult fuel k).1.take n) ≤
        countAccepts
          ((runServerLoop acceptOk sessionResult fuel k).1.take n) ∧
      countAccepts ((runServerLoop acceptOk sessionResult fuel k).1.take n) ≤
        countServes
          ((runServerLoop acceptOk sessionResult fuel k).1.take n) + 1 := by
  intro fuel
  induction fuel with
  | zero =>
    intro k n
    simp [runServerLoop, countAccepts, countServes]
  | succ f ih =>
    intro k n
    by_cases ha : acceptOk k
    · by_cases hr : sessionResult k = 0
      · simp only [runServerLoop, ha, hr, if_pos rfl, if_true]
        match n with
        | 0 => simp [countAccepts, countServes]
        | 1 => simp [countAccepts, countServes]
        | n + 2 =>
          obtain ⟨g1, g2⟩ := ih (k + 1) n
          simp only [List.take_succ_cons, countAccepts, countServes]
          omega
      · simp only [runServerLoop, ha, hr, if_neg hr, if_true]
        match n with
        | 0 => simp [countAccepts, countServes]
        | 1 => simp [countAccepts, countServes]
        | 2 => simp [countAccepts, countServes]
        | n + 3 => simp [countAccepts, countServes, List.take_succ_cons]
    · simp only [runServerLoop, ha, if_false, Bool.false_eq_true]
      match n with
      | 0 => simp [countAccepts, countServes]
      | n + 1 => simp [countAccepts, countServes, List.take_succ_cons]

/-- C6: the serving loop handles one connection at a time.  A session
ending with engine result 0 re-enters accept (and, given fuel, the
next event is again an accept, so a further connection can be served);
a session ending with a non-zero result produces exactly accept,
serve, close of the listening socket - the trace ends there and no
further accept occurs; and in every prefix of the trace accepts and
completed sessions alternate strictly. -/
theorem claim_C6_serial_service (acceptOk : Nat → Bool)
    (sessionResult : Nat → Int) (fuel k : Nat)
    (hacc : ∀ j, acceptOk j = true) :
    (sessionResult k = 0 →
      (runServerLoop acceptOk sessionResult (fuel + 1) k).1 =
        ServerEvent.acceptEv :: ServerEvent.serveEv 0 ::
          (runServerLoop acceptOk sessionResult fuel (k + 1)).1 ∧
      (1 ≤ fuel → ∃ tl, (runServerLoop acceptOk sessionResult fuel (k + 1)).1 =
        ServerEvent.acceptEv :: tl)) ∧
    (sessionResult k ≠ 0 →
      runServerLoop acceptOk sessionResult (fuel + 1) k =
        ([ServerEvent.acceptEv, ServerEvent.serveEv (sessionResult k),
          ServerEvent.closeEv], some 0)) ∧
    (∀ n,
      countServes ((runServerLoop acceptOk sessionResult fuel k).1.take n) ≤
        countAccepts
          ((runServerLoop acceptOk sessionResult fuel k).1.take n) ∧
      countAccepts ((runServerLoop acceptOk sessionResult fuel k).1.take n) ≤
        countServes
          ((runServerLoop acceptOk sessionResult fuel k).1.take n) + 1) := by
  refine ⟨?_, ?_, fun n => serverLoop_session_counts acceptOk sessionResult
    fuel k n⟩
  · intro hr
    constructor
    · simp [runServerLoop, hacc k, hr]
    · intro hfuel
      cases fuel with
      | zero => omega
      | succ f =>
        by_cases hr1 : sessionResult (k + 1) = 0
        · refine ⟨ServerEvent.serveEv 0 ::
            (runServerLoop acceptOk sessionResult f (k + 1 + 1)).1, ?_⟩
          simp [runServerLoop, hacc (k + 1), hr1]
        · refine ⟨[ServerEvent.serveEv (sessionResult (k + 1)),
            ServerEvent.closeEv], ?_⟩
          simp [runServerLoop, hacc (k + 1), hr1]
  · intro hr
    simp [runServerLoop, hacc k, hr]

theorem claim_C6_witness :
    (runServerLoop (fun _ => true)
      (fun j => if j = 0 then 0 else 7) 2 0).1 =
      ServerEvent.acceptEv :: ServerEvent.serveEv 0 ::
        (runServerLoop (fun _ => true)
          (fun j => if j = 0 then 0 else 7) 1 1).1 ∧
    runServerLoop (fun _ => true) (fun j => if j = 0 then 0 else 7) 2 1 =
      ([ServerEvent.acceptEv, ServerEvent.serveEv 7, ServerEvent.closeEv],
        some 0) := by
  have h1 := (claim_C6_serial_service (fun _ => true)
    (fun j => if j = 0 then 0 else 7) 1 0 (fun _ => rfl)).1 (by decide)
  have h2 := (claim_C6_serial_service (fun _ => true)
    (fun j => if j = 0 then 0 else 7) 1 1 (fun _ => rfl)).2.1 (by decide)
  exact ⟨h1.1, h2⟩

/-- When accepts succeed and the first non-zero session result appears
at offset m within the fuel, the serving loop terminates: it closes
the listening socket (the trace ends with the close event) and
the loop of run_server yields return value 0 - the value of the
return statement at machine-control.c line 175. -/
theorem serverLoop_first_nonzero (acceptOk : Nat → Bool)
    (sessionResult : Nat → Int) (hacc : ∀ j, acceptOk j = true) :
    ∀ (m k fuel : Nat), (∀ j, j < m → sessionResult (k + j) = 0) →
      sessionResult (k + m) ≠ 0 → m < fuel →
      (runServerLoop acceptOk sessionResult fuel k).2 = some 0 ∧
      ∃ pre, (runServerLoop acceptOk sessionResult fuel k).1 =
        pre ++ [ServerEvent.closeEv] := by
  intro m
  induction m with
  | zero =>
    intro k fuel h0 hnz hlt
    cases fuel with
    | zero => omega
    | succ f =>
      rw [Nat.add_zero] at hnz
      refine ⟨by simp [runServerLoop, hacc k, hnz], ?_⟩
      exact ⟨[ServerEvent.acceptEv, ServerEvent.serveEv (sessionResult k)],
        by simp [runServerLoop, hacc k, hnz]⟩
  | succ m ih =>
    intro k fuel h0 hnz hlt
    cases fuel with
    | zero => omega
    | succ f =>
      have hk0 : sessionResult k = 0 := by
        have := h0 0 (by omega); simpa using this
      have hsh : ∀ j, j < m → sessionResult (k + 1 + j) = 0 := by
        intro j hj
        have := h0 (j + 1) (by omega)
        simpa [Nat.add_comm, Nat.add_left_comm, Nat.add_assoc] using this
      have hnz1 : sessionResult (k + 1 + m) ≠ 0 := by
        have heq : k + 1 + m = k + (m + 1) := by omega
        rw [heq]; exact hnz
      obtain ⟨hret, pre, hpre⟩ := ih (k + 1) f hsh hnz1 (by omega)
      constructor
      · simp [runServerLoop, hacc k, hk0, hret]
      · refine ⟨ServerEvent.acceptEv :: ServerEvent.serveEv 0 :: pre, ?_⟩
        simp [runServerLoop, hacc k, hk0, hpre]

/-- C1 counterexample: network mode, init succeeds, the very first
session ends with the non-zero engine result 7; the serving loop exits
but the process exit code is 0 (success), not 1, because run_server
returns 0 at line 175 after logging the result. -/
theorem claim_C1_counterexample :
    mainNetworkExitCode 0 4444 true (fun _ => true) (fun _ => 7) 5 =
      some 0 ∧
    some (0 : Int) ≠ some (1 : Int) := by decide

/-- C1 amended: in network mode, once the engine reports a non-zero
result for a session the serving loop does exit and the listening
socket is closed, but the non-zero result is not propagated: run_server
returns 0, so the overall process exit code is 0 (success), not 1. -/
theorem claim_C1_amended (port : Int) (acceptOk : Nat → Bool)
    (sessionResult : Nat → Int) (m fuel : Nat) (hport : port ≤ 65535)
    (hacc : ∀ j, acceptOk j = true)
    (hzero : ∀ j, j < m → sessionResult j = 0)
    (hnz : sessionResult m ≠ 0) (hfuel : m < fuel) :
    mainNetworkExitCode 0 port true acceptOk sessionResult fuel = some 0 ∧
    ∃ pre, (run_server port true acceptOk sessionResult fuel).1 =
      pre ++ [ServerEvent.closeEv] := by
  have hz0 : ∀ j, j < m → sessionResult (0 + j) = 0 := by
    intro j hj; simpa using hzero j hj
  have hnz0 : sessionResult (0 + m) ≠ 0 := by simpa using hnz
  obtain ⟨hret, pre, hpre⟩ := serverLoop_first_nonzero acceptOk sessionResult
    hacc m 0 fuel hz0 hnz0 hfuel
  have hnp : ¬ (65535 < port) := by omega
  constructor
  · simp [mainNetworkExitCode, run_server, hnp, hret]
  · exact ⟨pre, by simp [run_server, hnp, hpre]⟩

theorem claim_C1_witness :
    mainNetworkExitCode 0 4444 true (fun _ => true)
      (fun j => if j = 0 then 0 else 7) 3 = some 0 :=
  (claim_C1_amended 4444 (fun _ => true) (fun j => if j = 0 then 0 else 7)
    1 3 (by decide) (fun _ => rfl)
    (fun j hj => by
      have hj0 : j = 0 := by omega
      simp [hj0])
    (by decide) (by decide)).1
